import Mathlib

/-!
Shallow embedding of `packages/user-mgmt/src/index.ts` (a Cloudflare Worker
managing user registration, login, logout and session loading), together with
proofs about the claims of its specification.

Modelling conventions:
* JS strings are embedded as `Str := List Char`; the JS operations used by the
  worker (`split`, `trim`, `startsWith`, `find`, template concatenation) are
  defined below with JS semantics.
* Platform primitives that the worker calls but does not define are passed in
  as explicit parameters: the SHA-256 digest (`crypto.subtle.digest` composed
  with `TextEncoder.encode`) is an arbitrary function `Digest`, the random salt
  bytes (`crypto.getRandomValues(new Uint8Array(16))`) are an explicit
  argument, and the WHATWG `URL` constructor is a function
  `Str → Option URLRec` (`none` models the constructor throwing).
* Asynchronous effectful code is embedded by passing in the outcome of each
  outbound interaction (JSON body parse, D1 query, session-service fetch) as
  an `Except JsError _` field of a `World`; a handler returns
  `Except JsError Response`, where `Except.error` models an exception
  propagating out of the handler.
-/

/-- JS strings, embedded as lists of characters. -/
abbrev Str := List Char

/-- A JS exception value. Only identity matters for the embedding. -/
structure JsError where
  code : Nat
deriving DecidableEq, Repr

/-- `s.split(sep)` for a single-character separator, JS semantics:
`"".split(c) = [""]`, empty segments are kept. -/
def jsSplit (sep : Char) : Str → List Str
  | [] => [[]]
  | c :: cs =>
    if c = sep then [] :: jsSplit sep cs
    else
      match jsSplit sep cs with
      | [] => [[c]]
      | t :: ts => (c :: t) :: ts

/-- Whitespace stripped by JS `String.prototype.trim` (ASCII part). -/
def isJsWhitespace (c : Char) : Bool :=
  c = ' ' || c = '\t' || c = '\n' || c = '\r' || c = '\x0b' || c = '\x0c'

/-- `s.trim()`. -/
def jsTrim (s : Str) : Str :=
  ((s.dropWhile isJsWhitespace).reverse.dropWhile isJsWhitespace).reverse

/-- Digit character for `n < 10` (used by `Number.prototype.toString`). -/
def digitChar (n : Nat) : Char := Char.ofNat (48 + n)

/-- Decimal representation of a byte value (`b.toString()` for `b < 256`),
as produced for each salt byte by `Uint8Array.prototype.join`. -/
def decDigits (n : Nat) : Str :=
  if n < 10 then [digitChar n]
  else if n < 100 then [digitChar (n / 10), digitChar (n % 10)]
  else [digitChar (n / 100), digitChar (n / 10 % 10), digitChar (n % 10)]

/-- `crypto.getRandomValues(new Uint8Array(16)).join('')`: the salt bytes
joined as decimal numbers with no separator. -/
def saltString (saltBytes : List (Fin 256)) : Str :=
  (saltBytes.map fun b => decDigits b.val).flatten

/-- Hex digit character for `n < 16`, lowercase, as produced by
`b.toString(16)`. -/
def hexChar (n : Nat) : Char :=
  if n < 10 then Char.ofNat (48 + n) else Char.ofNat (87 + n)

/-- `b.toString(16).padStart(2, '0')` for a byte `b < 256`: exactly two
lowercase hex digits. -/
def hexByte (b : Fin 256) : Str :=
  [hexChar (b.val / 16), hexChar (b.val % 16)]

/-- `hashArray.map(b => b.toString(16).padStart(2, '0')).join('')`. -/
def bytesToHex (bs : List (Fin 256)) : Str :=
  (bs.map hexByte).flatten

/-- The digest primitive: `crypto.subtle.digest({name: 'SHA-256'}, ...)`
composed with `new TextEncoder().encode(...)`, i.e. a deterministic function
from the input string to an array of bytes. -/
abbrev Digest := Str → List (Fin 256)

/-- `hashPassword(password)` from index.ts: a fresh random salt is drawn
(passed here as `saltBytes`), joined to a decimal string, prepended to the
password, digested, hex-encoded, and returned as `salt:hexDigest`. -/
def hashPassword (digest : Digest) (saltBytes : List (Fin 256)) (password : Str) : Str :=
  let salt := saltString saltBytes
  let hashHex := bytesToHex (digest (salt ++ password))
  salt ++ (':' :: hashHex)

/-- `comparePassword(providedPassword, storedHash)` from index.ts:
`const [salt, originalHash] = storedHash.split(':')` takes the first two
segments (the second may be absent, in which case the final `===` against
`undefined` is false); the provided password is digested with the extracted
salt and the hex digests are compared. -/
def comparePassword (digest : Digest) (providedPassword storedHash : Str) : Bool :=
  let parts := jsSplit ':' storedHash
  let salt := parts.headD []
  let hashHex := bytesToHex (digest (salt ++ providedPassword))
  match parts.get? 1 with
  | none => false
  | some originalHash => hashHex == originalHash

/-! ## Responses and headers -/

/-- A digest usable for concrete evaluation: the empty byte array for every
input (any deterministic function is a valid instance of the digest
parameter). -/
def digest0 : Digest := fun _ => []

/-- The part of a `Response` the claims observe: status, body text
(`none` for a `null` body), and response headers in insertion order. -/
structure Response where
  status : Nat
  body : Option Str
  headers : List (Str × Str)
deriving DecidableEq, Repr

/-- `Headers.prototype.set`: replace the value of an existing header of that
name, or append the header. All header names in the worker are written with
identical casing, so exact-name matching is faithful here. -/
def setHeader : List (Str × Str) → Str → Str → List (Str × Str)
  | [], n, v => [(n, v)]
  | (m, u) :: hs, n, v =>
    if m == n then (n, v) :: hs else (m, u) :: setHeader hs n v

/-- `Headers.prototype.get`: the value of the header with that name. -/
def getHeader (hs : List (Str × Str)) (n : Str) : Option Str :=
  (hs.find? fun p => p.1 == n).map Prod.snd

/-! ## Origin validation -/

/-- The part of a parsed WHATWG `URL` object that `getValidatedOrigin`
reads. -/
structure URLRec where
  protocol : Str
deriving DecidableEq, Repr

/-- The platform `new URL(...)` constructor, as a parameter of the embedding:
`none` models the constructor throwing a `TypeError` on an unparseable
string. -/
abbrev URLParse := Str → Option URLRec

/-- Model of the platform WHATWG `URL` constructor (not part of the
repository), restricted to the behaviour `getValidatedOrigin` observes:
parsing succeeds when the string begins with a nonempty alphabetic scheme
followed by a colon, and `url.protocol` is that scheme including the colon;
any string without such a scheme prefix (for instance `foo`, or the literal
`null` origin a browser sends for opaque origins) makes the constructor
throw. -/
def urlParse : URLParse := fun s =>
  let scheme := s.takeWhile fun c => c.isAlpha
  if scheme.isEmpty then none
  else
    match s.drop scheme.length with
    | ':' :: _ => some ⟨scheme ++ [':']⟩
    | _ => none

/-- The `TypeError` thrown by `new URL(...)` on an unparseable string. -/
def urlTypeError : JsError := ⟨100⟩

/-- `getValidatedOrigin(request)` from index.ts: reads the `Origin` header;
returns `null` when absent; otherwise constructs `new URL(origin)` — with no
try/catch, so an unparseable origin makes the function throw — and returns
the origin unchanged when the protocol is `http:` or `https:`, else
`null`. -/
def getValidatedOrigin (parseURL : URLParse) (originHeader : Option Str) :
    Except JsError (Option Str) :=
  match originHeader with
  | none => .ok none
  | some origin =>
    match parseURL origin with
    | none => .error urlTypeError
    | some url =>
      if url.protocol == "http:".toList || url.protocol == "https:".toList then
        .ok (some origin)
      else
        .ok none

/-! ## Cookie decoding -/

/-- JS truthiness of a possibly-`null` string: `null` and the empty string
are falsy. -/
def strOptTruthy : Option Str → Bool
  | none => false
  | some s => !s.isEmpty

/-- The cookie-entry test used in index.ts:
`cookie.startsWith('cfw_session=')`. -/
def cookieMark : Str := "cfw_session=".toList

/-- The session-id extraction duplicated in `handleLoadUser` and
`handleLogout`: split the `Cookie` header on `;`, trim each entry, find the
first entry starting with `cfw_session=`, and take `entry.split('=')[1]`
(the segment between the first and second `=`). `none` when the header is
absent or no entry matches. -/
def cookieSessionId (cookieHeader : Option Str) : Option Str :=
  match cookieHeader with
  | none => none
  | some h =>
    let cookies := (jsSplit ';' h).map jsTrim
    match cookies.find? (fun c => cookieMark.isPrefixOf c) with
    | none => none
    | some sessionCookie => some ((jsSplit '=' sessionCookie).getD 1 [])

/-- The spec's reading of the session-id extraction, for comparison with
`cookieSessionId`: identical except that the value is "the entire text after
the first `=` of that entry". -/
def specSessionId (cookieHeader : Option Str) : Option Str :=
  match cookieHeader with
  | none => none
  | some h =>
    let cookies := (jsSplit ';' h).map jsTrim
    match cookies.find? (fun c => cookieMark.isPrefixOf c) with
    | none => none
    | some sessionCookie =>
      some ((sessionCookie.dropWhile fun c => !(c == '=')).drop 1)

/-! ## Request bodies, database rows, and the request world -/

/-- The `Credentials` interface of index.ts. Fields are `Option` because a
parsed JSON body may lack them (`undefined`). -/
structure Credentials where
  username : Option Str
  password : Option Str
deriving DecidableEq, Repr

/-- The `RegistrationData` interface of index.ts. -/
structure RegistrationData where
  username : Option Str
  password : Option Str
  firstName : Option Str
  lastName : Option Str
deriving DecidableEq, Repr

/-- A row of the D1 `User` table, with the columns the worker reads. -/
structure UserRow where
  Username : Str
  Password : Str
  FirstName : Str
  LastName : Str
deriving DecidableEq, Repr

/-- The result object of a D1 `.all()` call: a success flag and the rows. -/
structure D1Result where
  success : Bool
  results : List UserRow
deriving DecidableEq, Repr

/-- An interaction `handleRegister` issues against the user store. -/
inductive Effect where
  | userQuery (username : Str)
  | userInsert (username : Str) (passwordHash : Str)
      (firstName : Option Str) (lastName : Option Str)
deriving DecidableEq, Repr

/-- One request together with the outcomes of every outbound interaction its
handling may perform. Each `Except JsError _` field is the result of the
corresponding `await`: `.error` models the promise rejecting (an exception at
the `await`). -/
structure World where
  method : Str
  path : Str
  origin : Option Str
  cookie : Option Str
  acrMethod : Option Str
  acrHeaders : Option Str
  parseURL : URLParse
  digest : Digest
  salt : List (Fin 256)
  loginJson : Except JsError Credentials
  registerJson : Except JsError RegistrationData
  forgotJson : Except JsError Str
  userQueryResult : Except JsError D1Result
  userCheckResult : Except JsError D1Result
  userInsertResult : Except JsError Unit
  sessionCreateResult : Except JsError Str
  sessionGetResult : Except JsError Str
  sessionDeleteResult : Except JsError Response

/-! ## Literal strings of the worker -/

def starStr : Str := "*".toList
def appJson : Str := "application/json".toList
def hACAO : Str := "Access-Control-Allow-Origin".toList
def hACAM : Str := "Access-Control-Allow-Methods".toList
def hACAC : Str := "Access-Control-Allow-Credentials".toList
def hMaxAge : Str := "Access-Control-Max-Age".toList
def hAllowHeaders : Str := "Access-Control-Allow-Headers".toList
def hContentType : Str := "Content-Type".toList
def hXCTO : Str := "X-Content-Type-Options".toList
def hSetCookie : Str := "Set-Cookie".toList
def hAllow : Str := "Allow".toList

/-- The module-level `corsHeaders` constant of index.ts. -/
def corsHeaders : List (Str × Str) :=
  [(hACAO, starStr),
   (hACAM, "GET,HEAD,POST,OPTIONS".toList),
   (hMaxAge, "86400".toList),
   (hACAC, "true".toList)]

def missingFieldsBody : Str := "\x7b\"error\":\"Missing required fields\"\x7d".toList
def userExistsBody : Str := "\x7b\"error\":\"User already exists\"\x7d".toList
def registeredBody : Str := "\x7b\"message\":\"User registered successfully\"\x7d".toList
def internalErrorBody : Str := "\x7b\"error\":\"Internal server error\"\x7d".toList
def invalidCredentialsBody : Str := "\x7b\"error\":\"Invalid credentials\"\x7d".toList
def loginSuccessfulBody : Str := "\x7b\"message\":\"Login successful\"\x7d".toList
def loginFailedBody : Str := "\x7b\"error\":\"Login failed\"\x7d".toList
def logoutSuccessfulBody : Str := "\x7b\"message\":\"Logout successful\"\x7d".toList
def notLoggedInBody : Str := "\x7b\"error\":\"User not logged in\"\x7d".toList
def passwordResetBody : Str := "\x7b\"message\":\"Password reset initiated\"\x7d".toList

/-- The `Set-Cookie` value built on login:
`cfw_session=${sessionId}; Secure; Path=/; SameSite=None; Max-Age=${60 * 30}`
(the template computes `60 * 30 = 1800`). -/
def sessionCookieValue (sessionId : Str) : Str :=
  "cfw_session=".toList ++ sessionId ++
    "; Secure; Path=/; SameSite=None; Max-Age=1800".toList

/-! ## Handlers -/

def internalErrorResponse : Response := ⟨500, some internalErrorBody, []⟩
def missingFieldsResponse : Response := ⟨400, some missingFieldsBody, []⟩
def userExistsResponse : Response := ⟨409, some userExistsBody, []⟩
def registeredResponse : Response := ⟨201, some registeredBody, []⟩
def invalidCredentialsResponse : Response := ⟨401, some invalidCredentialsBody, []⟩
def loginFailedResponse : Response := ⟨401, some loginFailedBody, []⟩
def notLoggedInResponse : Response := ⟨401, some notLoggedInBody, []⟩
def notFoundResponse : Response := ⟨404, some "Not Found".toList, []⟩

/-- `handleRegister(request, env)` from index.ts, also recording the
interactions issued against the user store. The whole body is wrapped in
try/catch, so the handler never propagates an exception: any `.error`
outcome becomes the 500 catch response. -/
def handleRegister (w : World) : Response × List Effect :=
  match w.registerJson with
  | .error _ => (internalErrorResponse, [])
  | .ok regData =>
    if !(strOptTruthy regData.username) || !(strOptTruthy regData.password) then
      (missingFieldsResponse, [])
    else
      let username := regData.username.getD []
      let password := regData.password.getD []
      match w.userCheckResult with
      | .error _ => (internalErrorResponse, [.userQuery username])
      | .ok existingUser =>
        if existingUser.success ∧ existingUser.results.length > 0 then
          (userExistsResponse, [.userQuery username])
        else
          let hashedPassword := hashPassword w.digest w.salt password
          match w.userInsertResult with
          | .error _ =>
            (internalErrorResponse,
             [.userQuery username,
              .userInsert username hashedPassword regData.firstName regData.lastName])
          | .ok _ =>
            (registeredResponse,
             [.userQuery username,
              .userInsert username hashedPassword regData.firstName regData.lastName])

/-- The body of the `try` block of `handleLogin`: `some r` is an explicit
`return r` inside the `try`, `none` is falling through to the final
`return 401 Login failed`, `.error` is an exception inside the `try`
(which the `catch` then absorbs). -/
def loginFlow (w : World) (credentials : Credentials) : Except JsError (Option Response) :=
  if strOptTruthy credentials.username && strOptTruthy credentials.password then
    match w.userQueryResult with
    | .error e => .error e
    | .ok res =>
      match res.results with
      | [] => .ok none
      | user :: _ =>
        if !(comparePassword w.digest (credentials.password.getD []) user.Password) then
          .ok (some invalidCredentialsResponse)
        else
          match w.sessionCreateResult with
          | .error e => .error e
          | .ok sessionId =>
            match getValidatedOrigin w.parseURL w.origin with
            | .error e => .error e
            | .ok vo =>
              .ok (some
                ⟨200, some loginSuccessfulBody,
                 [(hACAO, vo.getD starStr),
                  (hContentType, appJson),
                  (hSetCookie, sessionCookieValue sessionId)]⟩)
  else
    .ok none

/-- `handleLogin(request, env)` from index.ts. `await request.json()` is
executed before the `try` block, so a body-parse exception propagates out of
the handler; every exception inside the `try` is caught (the catch only
logs) and execution falls through to the final 401 `Login failed`. -/
def handleLogin (w : World) : Except JsError Response :=
  match w.loginJson with
  | .error e => .error e
  | .ok credentials =>
    match loginFlow w credentials with
    | .error _ => .ok loginFailedResponse
    | .ok (some r) => .ok r
    | .ok none => .ok loginFailedResponse

/-- The response `handleLogout` builds: 200 with the cookie-clearing
`Set-Cookie` header. -/
def logoutResponse : Response :=
  ⟨200, some logoutSuccessfulBody,
   [(hSetCookie, "cfw_session=; HttpOnly; Secure; SameSite=Strict; Max-Age=0".toList)]⟩

/-- `handleLogout(request, env)` from index.ts: decode the session cookie;
when a (truthy) session id is present, `await` the remote delete with no
try/catch — a rejection there propagates — and in every other case return
200 with the cookie-clearing header. The delete's response value is
ignored. -/
def handleLogout (w : World) : Except JsError Response :=
  let sessionId := cookieSessionId w.cookie
  if strOptTruthy sessionId then
    match w.sessionDeleteResult with
    | .error e => .error e
    | .ok _ => .ok logoutResponse
  else
    .ok logoutResponse

/-- `handleLoadUser(request, env)` from index.ts. `sessionGetResult` is the
composite outcome of the session-service fetch, `.json()`, and
`JSON.stringify` of the parsed value. -/
def handleLoadUser (w : World) : Except JsError Response :=
  let sessionId := cookieSessionId w.cookie
  if strOptTruthy sessionId then
    match w.sessionGetResult with
    | .error e => .error e
    | .ok sessionData =>
      match getValidatedOrigin w.parseURL w.origin with
      | .error e => .error e
      | .ok vo =>
        .ok ⟨200, some sessionData, [(hACAO, vo.getD starStr), (hContentType, appJson)]⟩
  else
    .ok notLoggedInResponse

/-- `handleForgotPassword(request, env)` from index.ts: parses the body
(a rejection propagates) and returns the stub 200 response. -/
def handleForgotPassword (w : World) : Except JsError Response :=
  match w.forgotJson with
  | .error e => .error e
  | .ok _ => .ok ⟨200, some passwordResetBody, []⟩

/-- `handleOptions(request)` from index.ts: with the Origin /
Access-Control-Request-Method / Access-Control-Request-Headers triad
present, build the preflight headers (spreading `corsHeaders`, echoing the
requested headers, then overwriting `Access-Control-Allow-Origin` with the
validated origin — which may throw); otherwise answer a plain OPTIONS
request with a minimal `Allow` header. -/
def handleOptions (w : World) : Except JsError Response :=
  if w.origin.isSome && w.acrMethod.isSome && w.acrHeaders.isSome then
    match getValidatedOrigin w.parseURL w.origin with
    | .error e => .error e
    | .ok vo =>
      let respHeaders :=
        corsHeaders ++
          [(hAllowHeaders, w.acrHeaders.getD []),
           (hContentType, "text/plain".toList),
           (hXCTO, "nosniff".toList)]
      .ok ⟨200, none, setHeader respHeaders hACAO (vo.getD starStr)⟩
  else
    .ok ⟨200, none,
      [(hAllow, "GET, HEAD, POST, OPTIONS".toList),
       (hContentType, "text/plain".toList)]⟩

/-- The routing part of the exported `fetch` entry point of index.ts:
short-circuit `OPTIONS`, then dispatch on exact path match, defaulting to
404. -/
def routeRequest (w : World) : Except JsError Response :=
  if w.method == "OPTIONS".toList then handleOptions w
  else if w.path == "/register".toList then .ok (handleRegister w).1
  else if w.path == "/login".toList then handleLogin w
  else if w.path == "/logout".toList then handleLogout w
  else if w.path == "/forgot-password".toList then handleForgotPassword w
  else if w.path == "/load-user".toList then handleLoadUser w
  else .ok notFoundResponse

/-- The exported `fetch` entry point of index.ts: route, then stamp the
three CORS headers onto whatever response came back (`getValidatedOrigin`
runs again here and may throw). -/
def fetchMain (w : World) : Except JsError Response :=
  match routeRequest w with
  | .error e => .error e
  | .ok response =>
    match getValidatedOrigin w.parseURL w.origin with
    | .error e => .error e
    | .ok vo =>
      .ok { response with
            headers :=
              setHeader
                (setHeader
                  (setHeader response.headers hACAO (vo.getD starStr))
                  hACAM "GET, POST, PUT, DELETE, OPTIONS".toList)
                hACAC "true".toList }

/-! ## Concrete worlds for evaluation -/

/-- A benign request world: a GET to an unmatched path, no headers, every
outbound interaction succeeding. -/
def baseWorld : World where
  method := "GET".toList
  path := "/nope".toList
  origin := none
  cookie := none
  acrMethod := none
  acrHeaders := none
  parseURL := urlParse
  digest := digest0
  salt := []
  loginJson := .error ⟨1⟩
  registerJson := .error ⟨2⟩
  forgotJson := .error ⟨3⟩
  userQueryResult := .ok ⟨true, []⟩
  userCheckResult := .ok ⟨true, []⟩
  userInsertResult := .ok ()
  sessionCreateResult := .ok "sid0".toList
  sessionGetResult := .ok "sdata".toList
  sessionDeleteResult := .ok ⟨200, none, []⟩

/-- The 404 response after the boundary stamps the CORS headers, as produced
by `fetchMain baseWorld`. -/
def notFoundCors : Response :=
  ⟨404, some "Not Found".toList,
   [(hACAO, starStr),
    (hACAM, "GET, POST, PUT, DELETE, OPTIONS".toList),
    (hACAC, "true".toList)]⟩

/-- A `/login` request whose body fails to parse as JSON. -/
def loginParseFailWorld : World :=
  { baseWorld with
    method := "POST".toList
    path := "/login".toList
    loginJson := .error ⟨7⟩ }

/-- A `/login` request with a parseable body. -/
def loginOkJsonWorld : World :=
  { baseWorld with
    method := "POST".toList
    path := "/login".toList
    loginJson := .ok ⟨some "u".toList, some "p".toList⟩ }

/-- A `/login` request with a parseable body whose user-store query rejects:
an exception is raised inside the `try` block. -/
def loginDbThrowWorld : World :=
  { loginOkJsonWorld with userQueryResult := .error ⟨4⟩ }

/-- A stored row for user `u` whose password hash verifies against `p` under
`digest0`: `hashPassword digest0 [] "p" = ":"`. -/
def userRowU : UserRow :=
  ⟨"u".toList, ":".toList, "F".toList, "L".toList⟩

/-- A `/login` request with credentials matching the stored row and a
successful session creation, and no Origin header. -/
def loginGoodWorld : World :=
  { loginOkJsonWorld with
    userQueryResult := .ok ⟨true, [userRowU]⟩
    sessionCreateResult := .ok "s1".toList }

/-- The same matching `/login` request, but carrying the malformed header
`Origin: foo` (as a browser sends `Origin: null` for an opaque origin, an
origin value need not parse as a URL). -/
def loginBadOriginWorld : World :=
  { loginGoodWorld with origin := some "foo".toList }

/-- A `/logout` request with a session cookie whose remote delete call
rejects. -/
def logoutDeleteThrowWorld : World :=
  { baseWorld with
    method := "POST".toList
    path := "/logout".toList
    cookie := some "cfw_session=abc".toList
    sessionDeleteResult := .error ⟨9⟩ }

/-- A `/logout` request with a session cookie whose remote delete call
returns an error response (HTTP 500) rather than rejecting. -/
def logoutDeleteErrorResponseWorld : World :=
  { logoutDeleteThrowWorld with
    sessionDeleteResult := .ok ⟨500, none, []⟩ }

/-- A `/register` request whose body lacks the password field. -/
def registerMissingWorld : World :=
  { baseWorld with
    method := "POST".toList
    path := "/register".toList
    registerJson := .ok ⟨some "u".toList, none, some "F".toList, some "L".toList⟩ }

/-- A `/register` request for an already-present username: the existence
query reports one matching record. -/
def registerConflictWorld : World :=
  { baseWorld with
    method := "POST".toList
    path := "/register".toList
    registerJson := .ok ⟨some "u".toList, some "p".toList, some "F".toList, some "L".toList⟩
    userCheckResult := .ok ⟨true, [userRowU]⟩ }

/-- A `/register` request with username and password present but firstName
and lastName absent. -/
def registerNoNamesWorld : World :=
  { baseWorld with
    method := "POST".toList
    path := "/register".toList
    registerJson := .ok ⟨some "u".toList, some "p".toList, none, none⟩ }

/-! ## Lemmas about the string operations -/

theorem jsSplit_ne_nil (sep : Char) (s : Str) : jsSplit sep s ≠ [] := by
  induction s with
  | nil => simp [jsSplit]
  | cons c cs ih =>
    simp only [jsSplit]
    split
    · simp
    · split <;> simp

theorem jsSplit_not_mem (sep : Char) (a : Str) (h : sep ∉ a) : jsSplit sep a = [a] := by
  induction a with
  | nil => simp [jsSplit]
  | cons c cs ih =>
    simp only [List.mem_cons, not_or] at h
    obtain ⟨h1, h2⟩ := h
    simp only [jsSplit]
    rw [if_neg fun hc => h1 hc.symm, ih h2]

theorem jsSplit_append (sep : Char) (a b : Str) (h : sep ∉ a) :
    jsSplit sep (a ++ sep :: b) = a :: jsSplit sep b := by
  induction a with
  | nil => simp [jsSplit]
  | cons c cs ih =>
    simp only [List.mem_cons, not_or] at h
    obtain ⟨h1, h2⟩ := h
    simp only [List.cons_append, jsSplit]
    rw [if_neg fun hc => h1 hc.symm]
    simp only [List.append_eq]
    rw [ih h2]

theorem jsSplit_headD (sep : Char) (s : Str) :
    (jsSplit sep s).headD [] = s.takeWhile fun c => !(c == sep) := by
  induction s with
  | nil => simp [jsSplit]
  | cons c cs ih =>
    by_cases hc : c = sep
    · subst hc
      simp [jsSplit, List.takeWhile]
    · simp only [jsSplit, if_neg hc]
      cases h : jsSplit sep cs with
      | nil => exact absurd h (jsSplit_ne_nil sep cs)
      | cons t ts =>
        rw [h] at ih
        simp only [List.headD] at ih
        have hbeq : (c == sep) = false := beq_eq_false_iff_ne.mpr hc
        simp [List.takeWhile, hbeq, ih]

theorem digitChar_ne_colon (d : Nat) (h : d < 10) : digitChar d ≠ ':' := by
  interval_cases d <;> decide

theorem decDigits_ne_colon (n : Nat) (hn : n < 1000) :
    ∀ c ∈ decDigits n, c ≠ ':' := by
  intro c hc
  unfold decDigits at hc
  split at hc
  · simp only [List.mem_singleton] at hc
    subst hc
    exact digitChar_ne_colon n (by omega)
  · split at hc <;>
    · simp only [List.mem_cons, List.mem_singleton, List.not_mem_nil, or_false] at hc
      rcases hc with rfl | rfl | rfl <;> exact digitChar_ne_colon _ (by omega)

theorem saltString_not_colon (saltBytes : List (Fin 256)) :
    ':' ∉ saltString saltBytes := by
  unfold saltString
  intro h
  simp only [List.mem_flatten, List.mem_map] at h
  obtain ⟨l, ⟨b, _, rfl⟩, hc⟩ := h
  exact decDigits_ne_colon b.val (Nat.lt_trans b.isLt (by norm_num)) ':' hc rfl

theorem hexChar_ne_colon (n : Nat) (h : n < 16) : hexChar n ≠ ':' := by
  interval_cases n <;> decide

theorem bytesToHex_not_colon (bs : List (Fin 256)) : ':' ∉ bytesToHex bs := by
  unfold bytesToHex
  intro h
  simp only [List.mem_flatten, List.mem_map] at h
  obtain ⟨l, ⟨b, _, rfl⟩, hc⟩ := h
  have hb := b.isLt
  unfold hexByte at hc
  simp only [List.mem_cons, List.mem_singleton, List.not_mem_nil, or_false] at hc
  rcases hc with h | h
  · exact hexChar_ne_colon (b.val / 16) (by omega) h.symm
  · exact hexChar_ne_colon (b.val % 16) (by omega) h.symm

/-- C1: for every password, every salt draw and every (deterministic) digest
function, hashing then verifying round-trips:
`comparePassword(P, hashPassword(P))` is true. -/
theorem comparePassword_hashPassword_roundtrip (digest : Digest)
    (saltBytes : List (Fin 256)) (password : Str) :
    comparePassword digest password (hashPassword digest saltBytes password) = true := by
  unfold hashPassword comparePassword
  rw [jsSplit_append ':' (saltString saltBytes) _ (saltString_not_colon saltBytes),
    jsSplit_not_mem ':' _ (bytesToHex_not_colon _)]
  simp

/-! ## Lemmas about headers -/

theorem getHeader_setHeader_self (hs : List (Str × Str)) (n v : Str) :
    getHeader (setHeader hs n v) n = some v := by
  induction hs with
  | nil => simp [setHeader, getHeader]
  | cons p hs ih =>
    by_cases h : p.1 = n
    · simp [setHeader, getHeader, h]
    · have hb : (p.1 == n) = false := beq_eq_false_iff_ne.mpr h
      simp [setHeader, getHeader, hb] at ih ⊢
      exact ih

theorem getHeader_setHeader_ne (hs : List (Str × Str)) (m n v : Str) (h : m ≠ n) :
    getHeader (setHeader hs m v) n = getHeader hs n := by
  have hmn : (m == n) = false := beq_eq_false_iff_ne.mpr h
  induction hs with
  | nil => simp [setHeader, getHeader, hmn]
  | cons p hs ih =>
    obtain ⟨q, u⟩ := p
    by_cases hqm : q = m
    · have hq : (q == m) = true := beq_iff_eq.mpr hqm
      have hqn : (q == n) = false := beq_eq_false_iff_ne.mpr (hqm ▸ h)
      simp [setHeader, getHeader, hq, hmn, hqn]
    · have hq : (q == m) = false := beq_eq_false_iff_ne.mpr hqm
      by_cases hqn : q = n
      · have hqn' : (q == n) = true := beq_iff_eq.mpr hqn
        simp [setHeader, getHeader, hq, hqn']
      · have hqn' : (q == n) = false := beq_eq_false_iff_ne.mpr hqn
        simp [setHeader, getHeader, hq, hqn'] at ih ⊢
        exact ih

/-! ## Claim C2: exception handling in handleLogin -/

/-- C2 counterexample: a `/login` request whose body fails to parse as JSON
makes `handleLogin` propagate the exception to its caller (in index.ts,
`await request.json()` runs before the `try` block), rather than returning
the 401 `Login failed` response. -/
theorem handleLogin_json_throw_counterexample :
    handleLogin loginParseFailWorld = .error ⟨7⟩ := rfl

/-- C2 (amended): for every `/login` request whose body parses as JSON,
`handleLogin` returns a response rather than propagating an exception, and
whenever an exception is raised inside the `try` block (any `.error` outcome
of the flow), the catch absorbs it and the returned response is exactly the
401 with body `{error: 'Login failed'}`; only a body-parse failure
escapes. -/
theorem handleLogin_no_throw_after_parse (w : World) (credentials : Credentials)
    (h : w.loginJson = .ok credentials) :
    (∃ r, handleLogin w = .ok r) ∧
    (∀ e, loginFlow w credentials = .error e →
      handleLogin w = .ok loginFailedResponse ∧
      loginFailedResponse.status = 401 ∧
      loginFailedResponse.body = some loginFailedBody) := by
  constructor
  · unfold handleLogin
    rw [h]
    cases hlf : loginFlow w credentials with
    | error e => exact ⟨loginFailedResponse, by simp [hlf]⟩
    | ok o =>
      cases o with
      | none => exact ⟨loginFailedResponse, by simp [hlf]⟩
      | some r => exact ⟨r, by simp [hlf]⟩
  · intro e he
    refine ⟨?_, rfl, rfl⟩
    unfold handleLogin
    rw [h]
    simp [he]

/-- Witness for C2 (amended) at a concrete parseable `/login` request whose
user-store query rejects inside the `try` block. -/
theorem handleLogin_no_throw_after_parse_witness :
    (∃ r, handleLogin loginDbThrowWorld = .ok r) ∧
    handleLogin loginDbThrowWorld = .ok loginFailedResponse :=
  ⟨(handleLogin_no_throw_after_parse loginDbThrowWorld
      ⟨some "u".toList, some "p".toList⟩ rfl).1,
   ((handleLogin_no_throw_after_parse loginDbThrowWorld
      ⟨some "u".toList, some "p".toList⟩ rfl).2 ⟨4⟩ rfl).1⟩

/-! ## Claim C3: getValidatedOrigin -/

/-- C3 counterexample: `getValidatedOrigin` throws on a present but
unparseable `Origin` header value (index.ts calls `new URL(origin)` with no
try/catch), rather than returning null. -/
theorem getValidatedOrigin_throw_counterexample :
    getValidatedOrigin urlParse (some "foo".toList) = .error urlTypeError := rfl

/-- C3 (amended): for every URL-constructor behaviour, `getValidatedOrigin`
returns null when the `Origin` header is absent; throws a `TypeError` when
the header is present but not parseable as a URL; returns null when it
parses with a scheme other than http/https; and otherwise returns the header
value unchanged. -/
theorem getValidatedOrigin_cases (pu : URLParse) :
    getValidatedOrigin pu none = .ok none ∧
    (∀ o, pu o = none →
      getValidatedOrigin pu (some o) = .error urlTypeError) ∧
    (∀ o u, pu o = some u →
      (u.protocol = "http:".toList ∨ u.protocol = "https:".toList) →
      getValidatedOrigin pu (some o) = .ok (some o)) ∧
    (∀ o u, pu o = some u →
      ¬(u.protocol = "http:".toList ∨ u.protocol = "https:".toList) →
      getValidatedOrigin pu (some o) = .ok none) := by
  refine ⟨rfl, ?_, ?_, ?_⟩
  · intro o ho
    simp [getValidatedOrigin, ho]
  · intro o u hu hproto
    rcases hproto with hh | hh <;> simp [getValidatedOrigin, hu, hh]
  · intro o u hu hproto
    rw [not_or] at hproto
    simp [getValidatedOrigin, hu]
    exact ⟨by simpa using hproto.1, by simpa using hproto.2⟩

/-- Witness for C3 (amended) on the modelled URL constructor: an absent
header, the unparseable value `foo`, a valid https origin, and an ftp
origin. -/
theorem getValidatedOrigin_cases_witness :
    getValidatedOrigin urlParse none = .ok none ∧
    getValidatedOrigin urlParse (some "foo".toList) = .error urlTypeError ∧
    getValidatedOrigin urlParse (some "https://a.com".toList) =
      .ok (some "https://a.com".toList) ∧
    getValidatedOrigin urlParse (some "ftp://a.com".toList) = .ok none := by
  refine ⟨(getValidatedOrigin_cases urlParse).1, ?_, ?_, ?_⟩
  · exact (getValidatedOrigin_cases urlParse).2.1 "foo".toList rfl
  · exact (getValidatedOrigin_cases urlParse).2.2.1 "https://a.com".toList
      ⟨"https:".toList⟩ rfl (Or.inr rfl)
  · exact (getValidatedOrigin_cases urlParse).2.2.2 "ftp://a.com".toList
      ⟨"ftp:".toList⟩ rfl (by decide)

/-! ## Claim C4: handleLogout error swallowing -/

/-- C4 counterexample: a `/logout` request with a session cookie whose
remote delete call rejects makes `handleLogout` propagate the exception
(index.ts `await`s the delete with no try/catch) instead of returning the
200 logout response. -/
theorem handleLogout_throw_counterexample :
    handleLogout logoutDeleteThrowWorld = .error ⟨9⟩ := rfl

/-- C4 (amended): `handleLogout` returns the 200 `Logout successful`
response with the cookie-clearing `Set-Cookie` header whenever no truthy
session id is found in the cookie, and whenever the remote delete call
returns a response — the returned response is ignored, even when it is an
error response; only a rejection of the delete call itself escapes. -/
theorem handleLogout_ok_cases (w : World) :
    (strOptTruthy (cookieSessionId w.cookie) = false →
      handleLogout w = .ok logoutResponse) ∧
    (∀ resp, w.sessionDeleteResult = .ok resp →
      handleLogout w = .ok logoutResponse) := by
  constructor
  · intro h
    simp [handleLogout, h]
  · intro resp hr
    cases ht : strOptTruthy (cookieSessionId w.cookie) <;>
      simp [handleLogout, ht, hr]

/-- Witness for C4 (amended): a `/logout` request with no cookie, and one
whose delete call returns an HTTP 500 response. -/
theorem handleLogout_ok_cases_witness :
    handleLogout baseWorld = .ok logoutResponse ∧
    handleLogout logoutDeleteErrorResponseWorld = .ok logoutResponse :=
  ⟨(handleLogout_ok_cases baseWorld).1 rfl,
   (handleLogout_ok_cases logoutDeleteErrorResponseWorld).2 ⟨500, none, []⟩ rfl⟩

/-! ## Claim C5: the CORS stamping invariant -/

/-- C5: every response the top-level fetch handler returns — from any
handler, the 404 default, or the OPTIONS fallback — carries
`Access-Control-Allow-Origin` equal to the validated origin (or `*` when
validation yields none), `Access-Control-Allow-Methods` equal to the full
verb list, and `Access-Control-Allow-Credentials: true`. -/
theorem fetchMain_cors_invariant (w : World) (r : Response)
    (h : fetchMain w = .ok r) :
    ∃ vo, getValidatedOrigin w.parseURL w.origin = .ok vo ∧
      getHeader r.headers hACAO = some (vo.getD starStr) ∧
      getHeader r.headers hACAM = some "GET, POST, PUT, DELETE, OPTIONS".toList ∧
      getHeader r.headers hACAC = some "true".toList := by
  unfold fetchMain at h
  cases hr : routeRequest w with
  | error e => rw [hr] at h; cases h
  | ok resp =>
    rw [hr] at h
    cases hv : getValidatedOrigin w.parseURL w.origin with
    | error e => rw [hv] at h; cases h
    | ok vo =>
      rw [hv] at h
      cases h
      refine ⟨vo, rfl, ?_, ?_, ?_⟩
      · rw [getHeader_setHeader_ne _ _ _ _ (by decide),
          getHeader_setHeader_ne _ _ _ _ (by decide),
          getHeader_setHeader_self]
      · rw [getHeader_setHeader_ne _ _ _ _ (by decide),
          getHeader_setHeader_self]
      · rw [getHeader_setHeader_self]

/-- Witness for C5 at a concrete unmatched-path request, whose stamped 404
response is `notFoundCors`. -/
theorem fetchMain_cors_invariant_witness :
    ∃ vo, getValidatedOrigin baseWorld.parseURL baseWorld.origin = .ok vo ∧
      getHeader notFoundCors.headers hACAO = some (vo.getD starStr) ∧
      getHeader notFoundCors.headers hACAM =
        some "GET, POST, PUT, DELETE, OPTIONS".toList ∧
      getHeader notFoundCors.headers hACAC = some "true".toList :=
  fetchMain_cors_invariant baseWorld notFoundCors rfl

/-! ## Claim C6: cookie decoding -/

/-- C6 counterexample: for the header `Cookie: cfw_session=abc=def`, the
code's extraction (`sessionCookie.split('=')[1]`) yields `abc` — the segment
between the first and second `=` — while "the entire text after the first
`=`" is `abc=def`. -/
theorem cookieSessionId_counterexample :
    cookieSessionId (some "cfw_session=abc=def".toList) = some "abc".toList ∧
    specSessionId (some "cfw_session=abc=def".toList) = some "abc=def".toList ∧
    ("abc".toList : Str) ≠ "abc=def".toList :=
  ⟨rfl, rfl, by decide⟩

/-- C6 (amended): cookie decoding splits the `Cookie` header on `;`, trims
each entry, locates the first entry starting with `cfw_session=`, and takes
as session id the text strictly between the first and the second `=` of that
entry; absence of the header or of a matching entry yields no session id
rather than an error. -/
theorem cookieSessionId_spec :
    cookieSessionId none = none ∧
    (∀ h, ((jsSplit ';' h).map jsTrim).find? (fun c => cookieMark.isPrefixOf c) = none →
      cookieSessionId (some h) = none) ∧
    (∀ h sc,
      ((jsSplit ';' h).map jsTrim).find? (fun c => cookieMark.isPrefixOf c) = some sc →
      cookieSessionId (some h) =
        some ((sc.drop cookieMark.length).takeWhile fun c => !(c == '='))) := by
  refine ⟨rfl, ?_, ?_⟩
  · intro h hf
    simp [cookieSessionId, hf]
  · intro h sc hf
    have hm : cookieMark.isPrefixOf sc = true := by
      have := List.find?_some hf
      simpa using this
    obtain ⟨rest, hrest⟩ := List.isPrefixOf_iff_prefix.mp hm
    subst hrest
    simp only [cookieSessionId, hf]
    have hsplitArg : cookieMark ++ rest = "cfw_session".toList ++ '=' :: rest := rfl
    have hdropArg : ("cfw_session".toList ++ '=' :: rest).drop cookieMark.length = rest := rfl
    rw [hsplitArg]
    rw [jsSplit_append '=' "cfw_session".toList rest (by decide)]
    rw [hdropArg]
    cases hs : jsSplit '=' rest with
    | nil => exact absurd hs (jsSplit_ne_nil '=' rest)
    | cons t ts =>
      have hh := jsSplit_headD '=' rest
      rw [hs] at hh
      simp only [List.headD] at hh
      simp [List.getD, hh]

/-- Witness for C6 (amended) at a concrete two-cookie header. -/
theorem cookieSessionId_spec_witness :
    cookieSessionId (some "a=b; cfw_session=xyz".toList) =
      some (("cfw_session=xyz".toList.drop cookieMark.length).takeWhile
        fun c => !(c == '=')) :=
  cookieSessionId_spec.2.2 "a=b; cfw_session=xyz".toList
    "cfw_session=xyz".toList (by decide)

/-! ## Claim C7: register validation happens before any store interaction -/

/-- C7: a `/register` request whose body parses as JSON but whose username
or password is missing or empty gets a 400 response, and no query and no
insert are issued against the user store. -/
theorem handleRegister_missing_fields (w : World) (regData : RegistrationData)
    (hjson : w.registerJson = .ok regData)
    (hmiss : strOptTruthy regData.username = false ∨
      strOptTruthy regData.password = false) :
    (handleRegister w).1.status = 400 ∧ (handleRegister w).2 = [] := by
  unfold handleRegister
  rw [hjson]
  rcases hmiss with hm | hm <;> simp [hm, missingFieldsResponse]

/-- Witness for C7 at a concrete `/register` request with no password. -/
theorem handleRegister_missing_fields_witness :
    (handleRegister registerMissingWorld).1.status = 400 ∧
    (handleRegister registerMissingWorld).2 = [] :=
  handleRegister_missing_fields registerMissingWorld
    ⟨some "u".toList, none, some "F".toList, some "L".toList⟩ rfl (Or.inr rfl)

/-! ## Claim C8: register conflict -/

/-- C8: a `/register` request naming a username for which the existence
query reports a matching record (success with at least one row) gets a 409
`User already exists` response, and no insert into the user store is
attempted. -/
theorem handleRegister_conflict (w : World) (regData : RegistrationData)
    (existingUser : D1Result)
    (hjson : w.registerJson = .ok regData)
    (hu : strOptTruthy regData.username = true)
    (hp : strOptTruthy regData.password = true)
    (hcheck : w.userCheckResult = .ok existingUser)
    (hsucc : existingUser.success = true)
    (hres : existingUser.results ≠ []) :
    (handleRegister w).1 = userExistsResponse ∧
    ∀ un ph fn ln, Effect.userInsert un ph fn ln ∉ (handleRegister w).2 := by
  have hlen : existingUser.results.length > 0 := List.length_pos.mpr hres
  unfold handleRegister
  rw [hjson, hcheck]
  simp [hu, hp, hsucc, hlen]

/-- Witness for C8 at a concrete `/register` request whose existence query
reports one row. -/
theorem handleRegister_conflict_witness :
    (handleRegister registerConflictWorld).1 = userExistsResponse ∧
    ∀ un ph fn ln,
      Effect.userInsert un ph fn ln ∉ (handleRegister registerConflictWorld).2 :=
  handleRegister_conflict registerConflictWorld
    ⟨some "u".toList, some "p".toList, some "F".toList, some "L".toList⟩
    ⟨true, [userRowU]⟩ rfl rfl rfl rfl rfl (List.cons_ne_nil _ _)

/-! ## Claim C9: successful login sets the session cookie -/

/-- C9 counterexample: a `/login` request with credentials matching the
stored record and a session id returned by the session service, but carrying
the malformed header `Origin: foo`, is answered 401 `Login failed` with no
`Set-Cookie` (the `new URL` throw inside the `try` is caught and
fail-closed), not 200. -/
theorem handleLogin_success_counterexample :
    handleLogin loginBadOriginWorld = .ok loginFailedResponse ∧
    loginFailedResponse.status = 401 ∧
    getHeader loginFailedResponse.headers hSetCookie = none :=
  ⟨rfl, rfl, rfl⟩

/-- C9 (amended): a `/login` request with credentials matching a stored
user record, whose session-creation call returns a non-empty id and whose
origin validation does not throw, is answered 200 with a `Set-Cookie` header
`cfw_session=<sessionId>; Secure; Path=/; SameSite=None; Max-Age=1800`
carrying that non-empty id. -/
theorem handleLogin_success (w : World) (credentials : Credentials)
    (res : D1Result) (user : UserRow) (rest : List UserRow)
    (sessionId : Str) (vo : Option Str)
    (hjson : w.loginJson = .ok credentials)
    (hu : strOptTruthy credentials.username = true)
    (hp : strOptTruthy credentials.password = true)
    (hq : w.userQueryResult = .ok res)
    (hres : res.results = user :: rest)
    (hmatch : comparePassword w.digest (credentials.password.getD []) user.Password = true)
    (hsess : w.sessionCreateResult = .ok sessionId)
    (hsid : sessionId ≠ [])
    (hvo : getValidatedOrigin w.parseURL w.origin = .ok vo) :
    ∃ r, handleLogin w = .ok r ∧ r.status = 200 ∧
      getHeader r.headers hSetCookie =
        some ("cfw_session=".toList ++ sessionId ++
          "; Secure; Path=/; SameSite=None; Max-Age=1800".toList) ∧
      sessionId ≠ [] := by
  refine ⟨⟨200, some loginSuccessfulBody,
    [(hACAO, vo.getD starStr), (hContentType, appJson),
     (hSetCookie, sessionCookieValue sessionId)]⟩, ?_, rfl, ?_, hsid⟩
  · unfold handleLogin loginFlow
    simp only [hjson, hu, hp, hq, hres, hmatch, hsess, hvo, Bool.and_self,
      Bool.not_true, Bool.false_eq_true, if_false, if_true]
  · simp [getHeader, List.find?, sessionCookieValue,
      (by decide : (hACAO == hSetCookie) = false),
      (by decide : (hContentType == hSetCookie) = false)]

/-- Witness for C9 (amended) at a concrete matching login with session id
`s1` and no Origin header. -/
theorem handleLogin_success_witness :
    ∃ r, handleLogin loginGoodWorld = .ok r ∧ r.status = 200 ∧
      getHeader r.headers hSetCookie =
        some ("cfw_session=".toList ++ "s1".toList ++
          "; Secure; Path=/; SameSite=None; Max-Age=1800".toList) ∧
      ("s1".toList : Str) ≠ [] :=
  handleLogin_success loginGoodWorld ⟨some "u".toList, some "p".toList⟩
    ⟨true, [userRowU]⟩ userRowU [] "s1".toList none
    rfl rfl rfl rfl rfl (by decide) rfl (by decide) rfl

/-! ## Claim C10: registration does not validate firstName/lastName -/

/-- C10: a `/register` request whose body parses as JSON with truthy
username and password is never answered 400, even when firstName or lastName
is absent; whenever an insert is issued, it carries the request's firstName
and lastName values unchanged (including absent ones). -/
theorem handleRegister_no_name_validation (w : World) (regData : RegistrationData)
    (hjson : w.registerJson = .ok regData)
    (hu : strOptTruthy regData.username = true)
    (hp : strOptTruthy regData.password = true) :
    (handleRegister w).1.status ≠ 400 ∧
    ∀ un ph fn ln, Effect.userInsert un ph fn ln ∈ (handleRegister w).2 →
      fn = regData.firstName ∧ ln = regData.lastName := by
  unfold handleRegister
  rw [hjson]
  cases hcheck : w.userCheckResult with
  | error e =>
    simp [hu, hp, internalErrorResponse]
  | ok existingUser =>
    by_cases hex : existingUser.success ∧ existingUser.results.length > 0
    · simp [hu, hp, hex, userExistsResponse]
    · cases hins : w.userInsertResult with
      | error e =>
        simp only [hu, hp, Bool.not_true, Bool.or_self, Bool.false_eq_true,
          if_false, hex, if_true]
        constructor
        · simp [internalErrorResponse]
        · intro un ph fn ln hmem
          simp only [List.mem_cons, List.not_mem_nil, or_false] at hmem
          rcases hmem with hmem | hmem
          · cases hmem
          · obtain ⟨-, -, h3, h4⟩ := Effect.userInsert.injEq .. ▸ hmem
            exact ⟨h3, h4⟩
      | ok u =>
        simp only [hu, hp, Bool.not_true, Bool.or_self, Bool.false_eq_true,
          if_false, hex, if_true]
        constructor
        · simp [registeredResponse]
        · intro un ph fn ln hmem
          simp only [List.mem_cons, List.not_mem_nil, or_false] at hmem
          rcases hmem with hmem | hmem
          · cases hmem
          · obtain ⟨-, -, h3, h4⟩ := Effect.userInsert.injEq .. ▸ hmem
            exact ⟨h3, h4⟩

/-- Witness for C10 at a concrete `/register` request with firstName and
lastName absent. -/
theorem handleRegister_no_name_validation_witness :
    (handleRegister registerNoNamesWorld).1.status ≠ 400 ∧
    ∀ un ph fn ln,
      Effect.userInsert un ph fn ln ∈ (handleRegister registerNoNamesWorld).2 →
      fn = none ∧ ln = none :=
  handleRegister_no_name_validation registerNoNamesWorld
    ⟨some "u".toList, some "p".toList, none, none⟩ rfl rfl rfl
